import Mathlib

/-!
# Verification of the ExcelCanvasPython node-editor core (`src/app.py`)

A shallow embedding in Lean 4 of the interaction logic of the node-graph
editor: the zoom-limited viewport (`ZoomPanView.wheelEvent`), nodes with
input/output ports (`CustomNode`), Bézier connections (`ConnectionItem`)
and the connection-drawing state machine of `NodeEditorScene`
(`mousePressEvent` / `mouseMoveEvent` / `mouseReleaseEvent`).

Coordinates and scale factors are modelled as rationals; every numeric
literal appearing in the relevant code paths (1.25, 0.25, 4.0, 0.5, 15,
150, 100, 6) is exactly representable in binary floating point, and the
arithmetic operations on those paths (products of powers of 5/4 bounded by
4, additions and halvings of small dyadic coordinates) stay exact, so the
rational model computes the same values the Python program does.
-/

namespace NodeEditor

/-- A 2-D point (`QPointF`). -/
structure Point where
  x : ℚ
  y : ℚ
deriving DecidableEq, Repr

instance : Sub Point := ⟨fun a b => ⟨a.x - b.x, a.y - b.y⟩⟩

/-- Embeds `QPointF.manhattanLength`: `|x| + |y|`. -/
def Point.manhattanLength (p : Point) : ℚ := |p.x| + |p.y|

/-! ## ZoomPanView: zoom limits (`src/app.py` lines 22-23, 57-81) -/

/-- Embeds `self.min_zoom = 0.25` from `ZoomPanView.__init__`. -/
def min_zoom : ℚ := 0.25

/-- Embeds `self.max_zoom = 4.0` from `ZoomPanView.__init__`. -/
def max_zoom : ℚ := 4.0

/-- Embeds `ZoomPanView.wheelEvent`, acting on the current scale `m11` of the
view transform.  `angleDeltaY` is `event.angleDelta().y()`.  A zoom whose
resulting scale would pass a limit returns early, leaving the scale
unchanged; otherwise `self.scale(zoom_factor, zoom_factor)` multiplies the
scale by the factor. -/
def zoom_in_factor : ℚ := 1.25

def zoom_out_factor : ℚ := 1 / zoom_in_factor

def wheelEvent (angleDeltaY : ℚ) (current_scale : ℚ) : ℚ :=
  if angleDeltaY > 0 then
    if current_scale * zoom_in_factor > max_zoom then current_scale
    else current_scale * zoom_in_factor
  else
    if current_scale * zoom_out_factor < min_zoom then current_scale
    else current_scale * zoom_out_factor

/-- Run a sequence of wheel events (given by their `angleDelta` y values)
from a starting scale. -/
def runWheel (ds : List ℚ) (s : ℚ) : ℚ :=
  ds.foldl (fun a d => wheelEvent d a) s

/-- The zoom factor the spec ascribes to a wheel event: 1.25 for a zoom-in
request, 0.8 for a zoom-out request. -/
def wheelFactor (angleDeltaY : ℚ) : ℚ :=
  if angleDeltaY > 0 then 1.25 else 0.8

/-- A single zoom-in wheel step (`angleDelta().y() = 120`, a standard
wheel notch). -/
def zoomIn (s : ℚ) : ℚ := wheelEvent 120 s

/-! ## CustomNode (`src/app.py` lines 147-191) -/

/-- A rectangle given by its top-left corner, width and height (`QRectF`). -/
structure QRectF where
  x : ℚ
  y : ℚ
  w : ℚ
  h : ℚ
deriving DecidableEq, Repr

/-- Embeds `QRectF.contains` for a point: inside or on the edge. -/
def QRectF.containsPoint (r : QRectF) (p : Point) : Bool :=
  decide (r.x ≤ p.x) && decide (p.x ≤ r.x + r.w) &&
    decide (r.y ≤ p.y) && decide (p.y ≤ r.y + r.h)

/-- The state of a `CustomNode` item.  Connections are referred to by
their index in the scene's connection list. -/
structure CustomNode where
  pos : Point
  width : ℚ
  height : ℚ
  port_radius : ℚ
  input_pos : Point
  output_pos : Point
  connections : List Nat
deriving DecidableEq, Repr

/-- Embeds `CustomNode.__init__` followed by `setPos(p)` (the node is always
positioned right after construction, by `on_add_node_clicked`): size
150 × 100, port radius 6, input port at the left-mid point
`(0, height/2)`, output port at the right-mid point `(width, height/2)`,
and an empty attachment list. -/
def CustomNode.init (p : Point) : CustomNode :=
  let w : ℚ := 150
  let h : ℚ := 100
  { pos := p
    width := w
    height := h
    port_radius := 6
    input_pos := ⟨0, h / 2⟩
    output_pos := ⟨w, h / 2⟩
    connections := [] }

/-- Embeds `mapToScene` for a top-level, untransformed item: local coordinates
are translated by the item's scene position. -/
def CustomNode.mapToScene (n : CustomNode) (p : Point) : Point :=
  ⟨n.pos.x + p.x, n.pos.y + p.y⟩

/-- Embeds `CustomNode.boundingRect`:
`QRectF(0 - self.port_radius, 0, self.width + 2 * self.port_radius, self.height)`. -/
def CustomNode.boundingRect (n : CustomNode) : QRectF :=
  ⟨0 - n.port_radius, 0, n.width + 2 * n.port_radius, n.height⟩

/-! ## ConnectionItem (`src/app.py` lines 111-144) -/

/-- A cubic Bézier path produced by `moveTo` followed by `cubicTo`. -/
structure BezierPath where
  start : Point
  ctrl1 : Point
  ctrl2 : Point
  endp : Point
deriving DecidableEq, Repr

/-- The state of a `ConnectionItem`.  Endpoint nodes are referred to by
their index in the scene's node list. -/
structure ConnectionItem where
  start_item : Nat
  end_item : Nat
  zvalue : Int
  path : Option BezierPath
deriving DecidableEq, Repr

/-- Embeds `ConnectionItem.__init__(start_item, end_item)`: stores both endpoint
nodes and sets z = −1 so connections render beneath nodes; the painter
path is empty until `update_path` first runs. -/
def ConnectionItem.init (start_item end_item : Nat) : ConnectionItem :=
  { start_item := start_item, end_item := end_item, zvalue := -1, path := none }

/-- Embeds `ConnectionItem.update_path`: reads the live scene positions of the
source's output port and the target's input port and sets the cubic
Bézier path `moveTo(start); cubicTo(ctrl1, ctrl2, end)` with
`dx = end.x − start.x`, `ctrl1 = (start.x + dx·0.5, start.y)`,
`ctrl2 = (start.x + dx·0.5, end.y)`. -/
def ConnectionItem.update_path (c : ConnectionItem) (nodes : List CustomNode) :
    ConnectionItem :=
  match nodes[c.start_item]?, nodes[c.end_item]? with
  | some s, some e =>
      let start_pos := s.mapToScene s.output_pos
      let end_pos := e.mapToScene e.input_pos
      let dx := end_pos.x - start_pos.x
      let ctrl1 : Point := ⟨start_pos.x + dx * (1/2), start_pos.y⟩
      let ctrl2 : Point := ⟨start_pos.x + dx * (1/2), end_pos.y⟩
      { c with path := some ⟨start_pos, ctrl1, ctrl2, end_pos⟩ }
  | _, _ => c

/-! ## NodeEditorScene (`src/app.py` lines 194-254) -/

/-- The temporary dashed line shown while a connection is being drawn. -/
structure Line where
  p1 : Point
  p2 : Point
deriving DecidableEq, Repr

/-- The scene state: the insertion-ordered node and connection
collections plus the three gesture fields of `NodeEditorScene`
(`line_in_progress`, `start_item`, `start_pos`).  `line_in_progress =
some l` means the temporary line item `l` is in the scene. -/
structure SceneState where
  nodes : List CustomNode
  conns : List ConnectionItem
  line_in_progress : Option Line
  start_item : Option Nat
  start_pos : Option Point
deriving DecidableEq, Repr

/-- Embeds `NodeEditorScene.__init__`: empty scene, no gesture in progress. -/
def SceneState.init : SceneState := ⟨[], [], none, none, none⟩

/-- Embeds `QGraphicsScene.itemAt`, specialised to this scene's contents: the
topmost item at a point is a `CustomNode` iff some node's shape (the
default `shape()` is the bounding rectangle, tested in item-local
coordinates) contains the point — connections sit at z = −1 beneath every
node, and the temporary line is never in the scene when `itemAt` runs
(it is added after the press hit-test and removed before the release
hit-test).  Among overlapping nodes the most recently added is on top.
Returns the index of the topmost node containing the point, if any. -/
def itemAtNode (nodes : List CustomNode) (p : Point) : Option Nat :=
  (List.range nodes.length).reverse.find? (fun i =>
    match nodes[i]? with
    | some n => n.boundingRect.containsPoint (p - n.pos)
    | none => false)

/-- Embeds `MainWindow.on_add_node_clicked`: construct a `CustomNode`, position
it (the source draws the position at random; it is a parameter here) and
add it to the scene. -/
def SceneState.addNode (st : SceneState) (p : Point) : SceneState :=
  { st with nodes := st.nodes ++ [CustomNode.init p] }

/-- The loop of `CustomNode.itemChange`:
`for conn in self.connections: conn.update_path()`. -/
def updatePaths (nodes : List CustomNode) (cids : List Nat)
    (conns : List ConnectionItem) : List ConnectionItem :=
  cids.foldl (fun cs cid =>
    match cs[cid]? with
    | some c => cs.set cid (c.update_path nodes)
    | none => cs) conns

/-- A committed position change of node `i` (user drag of a movable item
or programmatic `setPos`): the position is updated, then Qt calls
`CustomNode.itemChange` with `ItemPositionHasChanged` (the node sets
`ItemSendsGeometryChanges`), which tells every attached connection to
recompute its path. -/
def SceneState.moveNode (st : SceneState) (i : Nat) (p : Point) : SceneState :=
  match st.nodes[i]? with
  | none => st
  | some n =>
      let n2 : CustomNode := { n with pos := p }
      let nodes2 := st.nodes.set i n2
      { st with nodes := nodes2
                conns := updatePaths nodes2 n2.connections st.conns }

/-- Embeds `NodeEditorScene.mousePressEvent` for a left-button press at scene
position `p`: if the topmost item is a `CustomNode` and the press is
within Manhattan distance 15 of its output port, record the source node
and port position and add the temporary line (both endpoints at the
port); otherwise fall through to the default handler, which starts no
connection gesture. -/
def SceneState.mousePressEvent (st : SceneState) (p : Point) : SceneState :=
  match itemAtNode st.nodes p with
  | some i =>
      match st.nodes[i]? with
      | some item =>
          let output_port_pos := item.mapToScene item.output_pos
          if (p - output_port_pos).manhattanLength < 15 then
            { st with start_item := some i
                      start_pos := some output_port_pos
                      line_in_progress := some ⟨output_port_pos, output_port_pos⟩ }
          else st
      | none => st
  | none => st

/-- Embeds `NodeEditorScene.mouseMoveEvent`: while a line is in progress its
free end tracks the pointer. -/
def SceneState.mouseMoveEvent (st : SceneState) (p : Point) : SceneState :=
  match st.line_in_progress, st.start_pos with
  | some _, some sp => { st with line_in_progress := some ⟨sp, p⟩ }
  | _, _ => st

/-- Resetting of the gesture fields at the end of
`NodeEditorScene.mouseReleaseEvent` (`self.line_in_progress,
self.start_item, self.start_pos = None, None, None`); dropping
`line_in_progress` is the removal of the temporary line from the scene. -/
def SceneState.resetGesture (st : SceneState) : SceneState :=
  { st with line_in_progress := none, start_item := none, start_pos := none }

/-- The commit block of `NodeEditorScene.mouseReleaseEvent`: create
`ConnectionItem(start_item, end_item)`, add it to the scene, append it to
both nodes' attachment lists, then `conn.update_path()`. -/
def SceneState.commitConnection (st : SceneState) (si ei : Nat) : SceneState :=
  let cid := st.conns.length
  let nodes2 :=
    match st.nodes[si]? with
    | some sn => st.nodes.set si { sn with connections := sn.connections ++ [cid] }
    | none => st.nodes
  let nodes3 :=
    match nodes2[ei]? with
    | some en => nodes2.set ei { en with connections := en.connections ++ [cid] }
    | none => nodes2
  { st with nodes := nodes3
            conns := st.conns ++ [(ConnectionItem.init si ei).update_path nodes3] }

/-- Embeds `NodeEditorScene.mouseReleaseEvent` at scene position `p`: if a line
was in progress it is removed unconditionally; a permanent connection is
committed exactly when the topmost item at `p` is a `CustomNode` different
from the source and `p` is within Manhattan distance 15 of that node's
input port; the gesture fields are reset regardless of success. -/
def SceneState.mouseReleaseEvent (st : SceneState) (p : Point) : SceneState :=
  match st.line_in_progress with
  | none => st
  | some _ =>
      match st.start_item with
      | none => st.resetGesture
      | some si =>
          match itemAtNode st.nodes p with
          | some ei =>
              if si ≠ ei then
                match st.nodes[ei]? with
                | some en =>
                    if (p - en.mapToScene en.input_pos).manhattanLength < 15 then
                      (st.commitConnection si ei).resetGesture
                    else st.resetGesture
                | none => st.resetGesture
              else st.resetGesture
          | none => st.resetGesture

/-- The observable scene events: an "add node" action, a committed node
move, and the left-button pointer events the scene handlers receive. -/
inductive Event where
  | addNode (p : Point)
  | moveNode (i : Nat) (p : Point)
  | press (p : Point)
  | move (p : Point)
  | release (p : Point)
deriving DecidableEq, Repr

/-- One scene event. -/
def step (st : SceneState) : Event → SceneState
  | .addNode p => st.addNode p
  | .moveNode i p => st.moveNode i p
  | .press p => st.mousePressEvent p
  | .move p => st.mouseMoveEvent p
  | .release p => st.mouseReleaseEvent p

/-- The scene state reached from the empty scene by a sequence of events. -/
def run (es : List Event) : SceneState := es.foldl step SceneState.init

/-- The geometry of a node: every field that hit-testing and port
positioning read (everything except the attachment list). -/
def CustomNode.geom (n : CustomNode) : Point × ℚ × ℚ × ℚ × Point × Point :=
  (n.pos, n.width, n.height, n.port_radius, n.input_pos, n.output_pos)

/-- Bidirectional consistency (C9): every connection in the scene's
collection appears in the attachment lists of both of its endpoint nodes,
and every connection id in any node's attachment list refers to a
connection present in the scene's collection. -/
def Consistent (st : SceneState) : Prop :=
  (∀ (cid : Nat) (c : ConnectionItem), st.conns[cid]? = some c →
    ∃ (ns ne : CustomNode),
      st.nodes[c.start_item]? = some ns ∧ st.nodes[c.end_item]? = some ne ∧
      cid ∈ ns.connections ∧ cid ∈ ne.connections) ∧
  (∀ (i : Nat) (n : CustomNode), st.nodes[i]? = some n →
    ∀ cid ∈ n.connections, ∃ (c : ConnectionItem), st.conns[cid]? = some c)

/-- The internal reachability invariant: consistency together with
validity of the recorded gesture source. -/
def Inv (st : SceneState) : Prop :=
  Consistent st ∧ ∀ si, st.start_item = some si → si < st.nodes.length

/-- One complete drag-to-connect gesture: pointer-down at `pd` followed
by pointer-up at `pu`.  Intermediate pointer-moves only reshape the
temporary line and do not affect the outcome. -/
def doGesture (pd pu : Point) (st : SceneState) : SceneState :=
  (st.mousePressEvent pd).mouseReleaseEvent pu

/-- The number of connections from node `a` to node `b` in a connection
list. -/
def connCount (conns : List ConnectionItem) (a b : Nat) : Nat :=
  conns.countP (fun c => c.start_item == a && c.end_item == b)

/-- Two freshly constructed nodes at `(0,0)` and `(300,0)`. -/
def twoNodes : List CustomNode := [CustomNode.init ⟨0, 0⟩, CustomNode.init ⟨300, 0⟩]

/-- Scenario 1 of the spec: add node A at `(0,0)` and node B at
`(300,0)`, then drag from A's output port `(150,50)` to B's input port
`(300,50)`. -/
def demoEvents : List Event :=
  [.addNode ⟨0, 0⟩, .addNode ⟨300, 0⟩, .press ⟨150, 50⟩, .release ⟨300, 50⟩]

/-- The one connection created by `demoEvents`: from node 0's output port
`(150,50)` to node 1's input port `(300,50)`. -/
def demoConn : ConnectionItem :=
  { start_item := 0, end_item := 1, zvalue := -1,
    path := some ⟨⟨150, 50⟩, ⟨225, 50⟩, ⟨225, 50⟩, ⟨300, 50⟩⟩ }

/-- The three-event prefix of `demoEvents`: the connection gesture is in
progress. -/
def pressDemo : List Event :=
  [.addNode ⟨0, 0⟩, .addNode ⟨300, 0⟩, .press ⟨150, 50⟩]

/-- Node 0 of the demo run after the connection is attached. -/
def demoNodeA : CustomNode := { CustomNode.init ⟨0, 0⟩ with connections := [0] }

/-- Node 1 of the demo run after the connection is attached. -/
def demoNodeB : CustomNode := { CustomNode.init ⟨300, 0⟩ with connections := [0] }

/-- The first two events of the demos: nodes A at `(0,0)` and B at
`(300,0)`, no gesture yet. -/
def addDemo : List Event := [.addNode ⟨0, 0⟩, .addNode ⟨300, 0⟩]

/-! ## Theorems -/

theorem wheelEvent_eq (d s : ℚ) :
    wheelEvent d s =
      if d > 0 then (if s * (5/4) > 4 then s else s * (5/4))
      else (if s * (4/5) < 1/4 then s else s * (4/5)) := by
  simp only [wheelEvent, zoom_in_factor, zoom_out_factor, min_zoom, max_zoom]
  norm_num

theorem wheelEvent_mem (d s : ℚ) (hlo : min_zoom ≤ s) (hhi : s ≤ max_zoom) :
    min_zoom ≤ wheelEvent d s ∧ wheelEvent d s ≤ max_zoom := by
  have hmin : min_zoom = 1/4 := by norm_num [min_zoom]
  have hmax : max_zoom = (4:ℚ) := by norm_num [max_zoom]
  rw [hmin] at hlo
  rw [hmax] at hhi
  rw [hmin, hmax, wheelEvent_eq]
  split
  · split
    next h => exact ⟨hlo, hhi⟩
    next h =>
      push_neg at h
      constructor
      · nlinarith
      · linarith
  · split
    next h => exact ⟨hlo, hhi⟩
    next h =>
      push_neg at h
      constructor
      · linarith
      · nlinarith

theorem runWheel_mem (ds : List ℚ) (s : ℚ) (hlo : min_zoom ≤ s)
    (hhi : s ≤ max_zoom) :
    min_zoom ≤ runWheel ds s ∧ runWheel ds s ≤ max_zoom := by
  induction ds generalizing s with
  | nil => exact ⟨hlo, hhi⟩
  | cons d ds ih =>
      have h := wheelEvent_mem d s hlo hhi
      exact ih (wheelEvent d s) h.1 h.2

/-- C1: starting from a scale within `[min_zoom, max_zoom]`, every sequence
of wheel events keeps the scale within `[min_zoom, max_zoom]`, and a single
zoom request whose resulting scale (current scale times 1.25 for in, 0.8
for out) would exceed `max_zoom` or fall below `min_zoom` is a no-op that
leaves the scale unchanged. -/
theorem zoom_scale_invariant (s : ℚ) (hlo : min_zoom ≤ s) (hhi : s ≤ max_zoom) :
    (∀ ds : List ℚ, min_zoom ≤ runWheel ds s ∧ runWheel ds s ≤ max_zoom) ∧
    (∀ d : ℚ, (s * wheelFactor d > max_zoom ∨ s * wheelFactor d < min_zoom) →
      wheelEvent d s = s) := by
  have hmin : min_zoom = 1/4 := by norm_num [min_zoom]
  have hmax : max_zoom = (4:ℚ) := by norm_num [max_zoom]
  refine ⟨fun ds => runWheel_mem ds s hlo hhi, fun d hd => ?_⟩
  rw [hmin] at hlo
  rw [hmax] at hhi
  rw [wheelEvent_eq]
  by_cases hdpos : d > 0
  · rw [if_pos hdpos]
    have hf : wheelFactor d = 5/4 := by
      unfold wheelFactor
      rw [if_pos hdpos]
      norm_num
    rw [hf, hmin, hmax] at hd
    rcases hd with h | h
    · rw [if_pos h]
    · exfalso; nlinarith
  · rw [if_neg hdpos]
    have hf : wheelFactor d = 4/5 := by
      unfold wheelFactor
      rw [if_neg hdpos]
      norm_num
    rw [hf, hmin, hmax] at hd
    rcases hd with h | h
    · exfalso; nlinarith
    · rw [if_pos h]

/-- Witness for C1 at the concrete scale 1 and a concrete wheel sequence. -/
theorem zoom_scale_invariant_witness :
    min_zoom ≤ runWheel [120, 120, -120] 1 ∧ runWheel [120, 120, -120] 1 ≤ max_zoom :=
  (zoom_scale_invariant 1 (by norm_num [min_zoom]) (by norm_num [max_zoom])).1
    [120, 120, -120]

theorem zoomIn_fix : zoomIn (15625/4096 : ℚ) = 15625/4096 := by
  rw [zoomIn, wheelEvent_eq]
  norm_num

theorem zoomIn_iter_six : zoomIn^[6] (1:ℚ) = 15625/4096 := by
  simp only [Function.iterate_succ_apply, Function.iterate_zero_apply]
  norm_num [zoomIn, wheelEvent_eq]

theorem zoomIn_iter_fix (m : Nat) : zoomIn^[m] (15625/4096 : ℚ) = 15625/4096 := by
  induction m with
  | zero => rfl
  | succ n ih => rw [Function.iterate_succ_apply, zoomIn_fix, ih]

/-- C6 counterexample: after 7 zoom-in steps from scale 1.0 the scale is
1.25^6 = 15625/4096 ≈ 3.8147, not 4.0: the 7th step is already a no-op
(1.25^6 · 1.25 > 4.0), so the scale never clamps at 4.0. -/
theorem zoom_seventh_step_not_four :
    zoomIn^[7] (1:ℚ) = 15625/4096 ∧ ((15625:ℚ)/4096) ≠ 4 := by
  constructor
  · rw [show (7:Nat) = 1 + 6 by rfl, Function.iterate_add_apply, zoomIn_iter_six,
      Function.iterate_one, zoomIn_fix]
  · norm_num

/-- C6 (amended): zooming in repeatedly from scale 1.0 caps the scale at
1.25^6 = 15625/4096 = 3.814697265625 after the 6th step; the 7th and every
subsequent zoom-in attempt (in particular all 20 steps of the scenario) is
a no-op leaving the scale at that value. -/
theorem zoom_caps_after_six (k : Nat) (h6 : 6 ≤ k) :
    zoomIn^[k] (1:ℚ) = 15625/4096 := by
  obtain ⟨m, rfl⟩ := Nat.exists_eq_add_of_le h6
  rw [Nat.add_comm 6 m, Function.iterate_add_apply, zoomIn_iter_six, zoomIn_iter_fix]

/-- Witness for the amended C6 at the scenario's 20 steps. -/
theorem zoom_caps_after_six_witness : zoomIn^[20] (1:ℚ) = 15625/4096 :=
  zoom_caps_after_six 20 (by decide)

/-! ### Basic facts about `update_path` and `updatePaths` -/

theorem update_path_start_item (c : ConnectionItem) (nodes : List CustomNode) :
    (c.update_path nodes).start_item = c.start_item := by
  unfold ConnectionItem.update_path
  cases nodes[c.start_item]? <;> cases nodes[c.end_item]? <;> rfl

theorem update_path_end_item (c : ConnectionItem) (nodes : List CustomNode) :
    (c.update_path nodes).end_item = c.end_item := by
  unfold ConnectionItem.update_path
  cases nodes[c.start_item]? <;> cases nodes[c.end_item]? <;> rfl

theorem update_path_idem (c : ConnectionItem) (nodes : List CustomNode) :
    (c.update_path nodes).update_path nodes = c.update_path nodes := by
  unfold ConnectionItem.update_path
  cases hs : nodes[c.start_item]? <;> cases he : nodes[c.end_item]? <;>
    simp [hs, he]

theorem updatePaths_cons (nodes : List CustomNode) (a : Nat) (as : List Nat)
    (conns : List ConnectionItem) :
    updatePaths nodes (a :: as) conns =
      updatePaths nodes as
        (match conns[a]? with
         | some c => conns.set a (c.update_path nodes)
         | none => conns) := rfl

theorem updatePaths_getElem (nodes : List CustomNode) (cids : List Nat)
    (conns : List ConnectionItem) (cid : Nat) :
    (updatePaths nodes cids conns)[cid]? =
      if cid ∈ cids then (conns[cid]?).map (fun c => c.update_path nodes)
      else conns[cid]? := by
  induction cids generalizing conns with
  | nil => simp [updatePaths]
  | cons a as ih =>
      rw [updatePaths_cons]
      by_cases hca : cid = a
      · subst hca
        cases hc : conns[cid]? with
        | none =>
            rw [ih]
            have hlen : ¬ cid < conns.length := by
              intro h
              exact absurd (List.getElem?_eq_getElem h) (by simp [hc])
            by_cases hmem : cid ∈ as <;>
              simp [hc, hmem, List.getElem?_eq_none (not_lt.mp hlen)]
        | some c =>
            have hlt : cid < conns.length := (List.getElem?_eq_some.mp hc).1
            rw [ih]
            have hset : (conns.set cid (c.update_path nodes))[cid]? =
                some (c.update_path nodes) :=
              List.getElem?_set_eq_of_lt _ (by simpa using hlt)
            by_cases hmem : cid ∈ as
            · simp [hmem, hset, hc, update_path_idem]
            · simp [hmem, hset, hc]
      · cases hc : conns[a]? with
        | none =>
            rw [ih]
            simp [List.mem_cons, hca]
        | some c =>
            rw [ih]
            have hset : (conns.set a (c.update_path nodes))[cid]? = conns[cid]? :=
              List.getElem?_set_ne (fun h => hca h.symm)
            simp [List.mem_cons, hca, hset]

theorem updatePaths_length (nodes : List CustomNode) (cids : List Nat)
    (conns : List ConnectionItem) :
    (updatePaths nodes cids conns).length = conns.length := by
  induction cids generalizing conns with
  | nil => rfl
  | cons a as ih =>
      rw [updatePaths_cons]
      cases hc : conns[a]? with
      | none => simp [ih]
      | some c => simp [ih]

/-! ### Hit-testing facts -/

theorem find?_congr {α : Type} (l : List α) (p q : α → Bool)
    (h : ∀ x ∈ l, p x = q x) : l.find? p = l.find? q := by
  induction l with
  | nil => rfl
  | cons a as ih =>
      rw [List.find?_cons, List.find?_cons, h a (List.mem_cons_self a as)]
      cases q a
      · exact ih fun x hx => h x (List.mem_cons_of_mem a hx)
      · rfl

theorem itemAtNode_getElem (nodes : List CustomNode) (p : Point) (i : Nat)
    (h : itemAtNode nodes p = some i) : ∃ n, nodes[i]? = some n := by
  unfold itemAtNode at h
  have hp := List.find?_some h
  cases hn : nodes[i]? with
  | some n => exact ⟨n, rfl⟩
  | none => rw [hn] at hp; simp at hp

theorem itemAtNode_congr (nodes1 nodes2 : List CustomNode) (p : Point)
    (hlen : nodes1.length = nodes2.length)
    (hgeom : ∀ (j : Nat), (nodes1[j]?).map CustomNode.geom =
      (nodes2[j]?).map CustomNode.geom) :
    itemAtNode nodes1 p = itemAtNode nodes2 p := by
  unfold itemAtNode
  rw [hlen]
  apply find?_congr
  intro j _
  have hj := hgeom j
  cases h1 : nodes1[j]? with
  | none =>
      rw [h1] at hj
      cases h2 : nodes2[j]? with
      | none => rfl
      | some n2 => rw [h2] at hj; simp at hj
  | some n1 =>
      rw [h1] at hj
      cases h2 : nodes2[j]? with
      | none => rw [h2] at hj; simp at hj
      | some n2 =>
          rw [h2] at hj
          simp only [Option.map_some'] at hj
          injection hj with hj
          simp only [CustomNode.geom, Prod.mk.injEq] at hj
          obtain ⟨hpos, hw, hh, hr, -, -⟩ := hj
          show n1.boundingRect.containsPoint (p - n1.pos) =
            n2.boundingRect.containsPoint (p - n2.pos)
          rw [CustomNode.boundingRect, CustomNode.boundingRect, hpos, hw, hh, hr]

/-! ### Reduction lemmas for `mouseReleaseEvent` -/

theorem mouseReleaseEvent_no_line (st : SceneState) (p : Point)
    (h : st.line_in_progress = none) : st.mouseReleaseEvent p = st := by
  unfold SceneState.mouseReleaseEvent
  rw [h]

theorem mouseReleaseEvent_no_start (st : SceneState) (p : Point) (l : Line)
    (hl : st.line_in_progress = some l) (hsi : st.start_item = none) :
    st.mouseReleaseEvent p = st.resetGesture := by
  unfold SceneState.mouseReleaseEvent
  rw [hl, hsi]

theorem mouseReleaseEvent_eq (st : SceneState) (p : Point) (l : Line) (si : Nat)
    (hl : st.line_in_progress = some l) (hsi : st.start_item = some si) :
    st.mouseReleaseEvent p =
      match itemAtNode st.nodes p with
      | some ei =>
          if si ≠ ei then
            match st.nodes[ei]? with
            | some en =>
                if (p - en.mapToScene en.input_pos).manhattanLength < 15 then
                  (st.commitConnection si ei).resetGesture
                else st.resetGesture
            | none => st.resetGesture
          else st.resetGesture
      | none => st.resetGesture := by
  unfold SceneState.mouseReleaseEvent
  rw [hl, hsi]

theorem mouseReleaseEvent_cases (st : SceneState) (p : Point) :
    st.mouseReleaseEvent p = st ∨ st.mouseReleaseEvent p = st.resetGesture ∨
    ∃ (si ei : Nat) (en : CustomNode), st.start_item = some si ∧
      itemAtNode st.nodes p = some ei ∧ si ≠ ei ∧ st.nodes[ei]? = some en ∧
      (p - en.mapToScene en.input_pos).manhattanLength < 15 ∧
      st.mouseReleaseEvent p = (st.commitConnection si ei).resetGesture := by
  cases hl : st.line_in_progress with
  | none => exact Or.inl (mouseReleaseEvent_no_line st p hl)
  | some l =>
      cases hsi : st.start_item with
      | none => exact Or.inr (Or.inl (mouseReleaseEvent_no_start st p l hl hsi))
      | some si =>
          rw [mouseReleaseEvent_eq st p l si hl hsi]
          cases hei : itemAtNode st.nodes p with
          | none => exact Or.inr (Or.inl rfl)
          | some ei =>
              dsimp only
              by_cases hne : si ≠ ei
              · rw [if_pos hne]
                cases hen : st.nodes[ei]? with
                | none => exact Or.inr (Or.inl rfl)
                | some en =>
                    dsimp only
                    by_cases hd : (p - en.mapToScene en.input_pos).manhattanLength < 15
                    · rw [if_pos hd]
                      exact Or.inr (Or.inr ⟨si, ei, en, rfl, rfl, hne, hen, hd, rfl⟩)
                    · rw [if_neg hd]
                      exact Or.inr (Or.inl rfl)
              · rw [if_neg hne]
                exact Or.inr (Or.inl rfl)

theorem commitConnection_conns (st : SceneState) (si ei : Nat) :
    ∃ nodes3, (st.commitConnection si ei).conns =
      st.conns ++ [(ConnectionItem.init si ei).update_path nodes3] :=
  ⟨_, rfl⟩

theorem mem_updatePaths (nodes : List CustomNode) (cids : List Nat)
    (conns : List ConnectionItem) (c : ConnectionItem)
    (hc : c ∈ updatePaths nodes cids conns) :
    ∃ c0 ∈ conns, c.start_item = c0.start_item ∧ c.end_item = c0.end_item := by
  obtain ⟨i, hi⟩ := List.mem_iff_getElem?.mp hc
  rw [updatePaths_getElem] at hi
  by_cases hmem : i ∈ cids
  · rw [if_pos hmem] at hi
    cases h0 : conns[i]? with
    | none => rw [h0] at hi; simp at hi
    | some c0 =>
        rw [h0] at hi
        simp only [Option.map_some'] at hi
        injection hi with hi
        refine ⟨c0, List.getElem?_mem h0, ?_, ?_⟩
        · rw [← hi, update_path_start_item]
        · rw [← hi, update_path_end_item]
  · rw [if_neg hmem] at hi
    exact ⟨c, List.getElem?_mem hi, rfl, rfl⟩

theorem foldl_invariant {σ α : Type} (f : σ → α → σ) (P : σ → Prop)
    (h : ∀ s a, P s → P (f s a)) (s : σ) (hs : P s) (l : List α) :
    P (l.foldl f s) := by
  induction l generalizing s with
  | nil => exact hs
  | cons a as ih => exact ih _ (h s a hs)

/-! ### C5: the Bézier path of `update_path` -/

/-- Helper: the exact value `update_path` assigns to the path when both
endpoint references resolve.  (Restated below as C5.)  For a
source node `s` and a target node `e`, `update_path` produces a cubic
Bézier curve starting at `s`'s output-port world position, ending at
`e`'s input-port world position, with control point 1 at
`(start.x + 0.5·dx, start.y)` and control point 2 at
`(start.x + 0.5·dx, end.y)`, where `dx = end.x − start.x`. -/
theorem update_path_spec (nodes : List CustomNode) (c : ConnectionItem)
    (s e : CustomNode) (hs : nodes[c.start_item]? = some s)
    (he : nodes[c.end_item]? = some e) :
    (c.update_path nodes).path =
      some { start := s.mapToScene s.output_pos
             ctrl1 := ⟨(s.mapToScene s.output_pos).x +
                 ((e.mapToScene e.input_pos).x - (s.mapToScene s.output_pos).x) * (1/2),
               (s.mapToScene s.output_pos).y⟩
             ctrl2 := ⟨(s.mapToScene s.output_pos).x +
                 ((e.mapToScene e.input_pos).x - (s.mapToScene s.output_pos).x) * (1/2),
               (e.mapToScene e.input_pos).y⟩
             endp := e.mapToScene e.input_pos } := by
  unfold ConnectionItem.update_path
  rw [hs, he]

/-- C5: for every connection whose endpoint node references resolve to a
source node `s` and a target node `e`, `update_path` produces a cubic
Bézier curve starting at `s`'s output-port world position, ending at
`e`'s input-port world position, with control point 1 at
`(start.x + 0.5·dx, start.y)` and control point 2 at
`(start.x + 0.5·dx, end.y)`, where `dx = end.x − start.x`. -/
theorem update_path_bezier (nodes : List CustomNode) (c : ConnectionItem)
    (s e : CustomNode) (hs : nodes[c.start_item]? = some s)
    (he : nodes[c.end_item]? = some e) :
    (c.update_path nodes).path =
      some { start := s.mapToScene s.output_pos
             ctrl1 := ⟨(s.mapToScene s.output_pos).x +
                 ((e.mapToScene e.input_pos).x - (s.mapToScene s.output_pos).x) * (1/2),
               (s.mapToScene s.output_pos).y⟩
             ctrl2 := ⟨(s.mapToScene s.output_pos).x +
                 ((e.mapToScene e.input_pos).x - (s.mapToScene s.output_pos).x) * (1/2),
               (e.mapToScene e.input_pos).y⟩
             endp := e.mapToScene e.input_pos } :=
  update_path_spec nodes c s e hs he

/-- Witness for C5: on the two demo nodes the computed path is the
concrete S-curve from `(150,50)` to `(300,50)`. -/
theorem update_path_bezier_witness :
    ((ConnectionItem.init 0 1).update_path twoNodes).path =
      some ⟨⟨150, 50⟩, ⟨225, 50⟩, ⟨225, 50⟩, ⟨300, 50⟩⟩ := by
  rw [update_path_bezier twoNodes (ConnectionItem.init 0 1) (CustomNode.init ⟨0, 0⟩)
    (CustomNode.init ⟨300, 0⟩) rfl rfl]
  with_unfolding_all decide

/-! ### C7: the constructor performs no self-connection check -/

/-- C7 counterexample: `ConnectionItem.__init__` performs no
source ≠ target check — constructing a connection with the same node
(index 0) as source and target succeeds, yielding a connection whose
source equals its target. -/
theorem connection_init_allows_self :
    (ConnectionItem.init 0 0).start_item = (ConnectionItem.init 0 0).end_item := rfl

/-! ### C8: the bounding rectangle is expanded on both sides -/

/-- C8 counterexample: for the constructed node, `boundingRect` has width
`width + 2·port_radius = 162`, not `width + port_radius = 156` as the
claim states. -/
theorem boundingRect_width_not_input_only :
    (CustomNode.init ⟨0, 0⟩).boundingRect.w ≠
      (CustomNode.init ⟨0, 0⟩).width + (CustomNode.init ⟨0, 0⟩).port_radius := by
  with_unfolding_all decide

/-- C8 (amended): `boundingRect` returns the node's local rectangle
expanded by the port radius on both the input (left) and the output
(right) side — the rectangle from `(−port_radius, 0)` with width
`width + 2·port_radius` and height `height`; for the constructed
150 × 100 node with port radius 6 that is the rectangle from `(−6, 0)`
of size 162 × 100. -/
theorem boundingRect_expanded_both_sides (n : CustomNode) :
    n.boundingRect =
      { x := 0 - n.port_radius, y := 0, w := n.width + 2 * n.port_radius,
        h := n.height } ∧
    (CustomNode.init ⟨0, 0⟩).boundingRect = { x := -6, y := 0, w := 162, h := 100 } :=
  ⟨rfl, by with_unfolding_all decide⟩

/-! ### Frame lemmas: which events touch which state fields -/

theorem mousePressEvent_nodes_conns (st : SceneState) (p : Point) :
    (st.mousePressEvent p).nodes = st.nodes ∧
      (st.mousePressEvent p).conns = st.conns := by
  unfold SceneState.mousePressEvent
  cases itemAtNode st.nodes p with
  | none => exact ⟨rfl, rfl⟩
  | some i =>
      dsimp only
      cases st.nodes[i]? with
      | none => exact ⟨rfl, rfl⟩
      | some item =>
          dsimp only
          split <;> exact ⟨rfl, rfl⟩

theorem mouseMoveEvent_nodes_conns (st : SceneState) (p : Point) :
    (st.mouseMoveEvent p).nodes = st.nodes ∧
      (st.mouseMoveEvent p).conns = st.conns := by
  unfold SceneState.mouseMoveEvent
  cases st.line_in_progress <;> cases st.start_pos <;> exact ⟨rfl, rfl⟩

theorem step_no_self (st : SceneState) (e : Event)
    (h : ∀ c ∈ st.conns, c.start_item ≠ c.end_item) :
    ∀ c ∈ (step st e).conns, c.start_item ≠ c.end_item := by
  cases e with
  | addNode p => exact h
  | moveNode i p =>
      intro c hc
      rw [show step st (Event.moveNode i p) = st.moveNode i p from rfl] at hc
      unfold SceneState.moveNode at hc
      cases hn : st.nodes[i]? with
      | none => rw [hn] at hc; exact h c hc
      | some n =>
          rw [hn] at hc
          dsimp only at hc
          obtain ⟨c0, hc0, hs, he⟩ := mem_updatePaths _ _ _ c hc
          rw [hs, he]
          exact h c0 hc0
  | press p =>
      intro c hc
      rw [show (step st (Event.press p)).conns = (st.mousePressEvent p).conns from rfl,
        (mousePressEvent_nodes_conns st p).2] at hc
      exact h c hc
  | move p =>
      intro c hc
      rw [show (step st (Event.move p)).conns = (st.mouseMoveEvent p).conns from rfl,
        (mouseMoveEvent_nodes_conns st p).2] at hc
      exact h c hc
  | release p =>
      rcases mouseReleaseEvent_cases st p with heq | heq |
        ⟨si, ei, en, hsi, hei, hne, hen, hd, heq⟩
      · rw [show step st (Event.release p) = st.mouseReleaseEvent p from rfl, heq]
        exact h
      · rw [show step st (Event.release p) = st.mouseReleaseEvent p from rfl, heq]
        exact h
      · rw [show step st (Event.release p) = st.mouseReleaseEvent p from rfl, heq]
        obtain ⟨nodes3, hconns⟩ := commitConnection_conns st si ei
        intro c hc
        rw [show ((st.commitConnection si ei).resetGesture).conns =
          (st.commitConnection si ei).conns from rfl, hconns] at hc
        rcases List.mem_append.mp hc with hold | hnew
        · exact h c hold
        · rw [List.mem_singleton] at hnew
          subst hnew
          rw [update_path_start_item, update_path_end_item]
          exact hne

/-- C7 (amended): the `ConnectionItem` constructor performs no
source ≠ target check (a self-connection object is constructible, see the
counterexample); the check is instead enforced by the scene's release
handler, which only commits a connection when the hit node differs from
the gesture's source — so in every scene state reachable from the empty
scene, no connection in the scene's collection has source = target. -/
theorem no_self_connection_reachable (es : List Event) :
    ∀ c ∈ (run es).conns, c.start_item ≠ c.end_item := by
  unfold run
  exact foldl_invariant step _ step_no_self SceneState.init
    (fun c hc => absurd hc (List.not_mem_nil c)) es

/-- Witness for the amended C7: the connection created by the demo run
has distinct endpoints. -/
theorem no_self_connection_reachable_witness :
    demoConn.start_item ≠ demoConn.end_item :=
  no_self_connection_reachable demoEvents demoConn (by with_unfolding_all decide)

/-! ### C4: when a press starts a connection gesture -/

/-- C4: with no gesture in progress, a (left-button) pointer-down at `p`
begins a connection gesture iff the topmost hit-tested item is a node and
`p` is within the port hit threshold (Manhattan distance under 15) of
that node's output port; in particular a pointer-down within the
threshold of a node's input port but not of its output port never starts
a gesture and leaves the scene state unchanged. -/
theorem press_starts_gesture_iff (st : SceneState) (p : Point)
    (hidle : st.line_in_progress = none) :
    ((st.mousePressEvent p).line_in_progress.isSome ↔
      ∃ (i : Nat) (n : CustomNode), itemAtNode st.nodes p = some i ∧
        st.nodes[i]? = some n ∧
        (p - n.mapToScene n.output_pos).manhattanLength < 15) ∧
    (∀ (i : Nat) (n : CustomNode), itemAtNode st.nodes p = some i →
      st.nodes[i]? = some n →
      (p - n.mapToScene n.input_pos).manhattanLength < 15 →
      ¬ (p - n.mapToScene n.output_pos).manhattanLength < 15 →
      st.mousePressEvent p = st) := by
  constructor
  · unfold SceneState.mousePressEvent
    cases hit : itemAtNode st.nodes p with
    | none => simp [hidle]
    | some i =>
        dsimp only
        cases hn : st.nodes[i]? with
        | none => simp [hidle, hn]
        | some n =>
            dsimp only
            by_cases hd : (p - n.mapToScene n.output_pos).manhattanLength < 15
            · rw [if_pos hd]
              exact iff_of_true (by rfl) ⟨i, n, rfl, hn, hd⟩
            · rw [if_neg hd]
              simp [hidle, hn, hd]
  · intro i n hi hn hinp hout
    unfold SceneState.mousePressEvent
    rw [hi]
    dsimp only
    rw [hn]
    dsimp only
    rw [if_neg hout]

/-- Witness for C4: on a single node at `(0,0)`, pressing at the input
port `(0,50)` (not near the output port `(150,50)`) starts no gesture. -/
theorem press_starts_gesture_iff_witness :
    (run [Event.addNode ⟨0, 0⟩]).mousePressEvent ⟨0, 50⟩ = run [Event.addNode ⟨0, 0⟩] :=
  (press_starts_gesture_iff (run [Event.addNode ⟨0, 0⟩]) ⟨0, 50⟩
      (by with_unfolding_all decide)).2 0 (CustomNode.init ⟨0, 0⟩)
    (by with_unfolding_all decide) (by with_unfolding_all decide)
    (by with_unfolding_all decide) (by with_unfolding_all decide)

/-! ### C3: what a pointer-up does -/

theorem commitConnection_spec (st : SceneState) (si ei : Nat) (sn en : CustomNode)
    (hsn : st.nodes[si]? = some sn) (hen : st.nodes[ei]? = some en) (hne : si ≠ ei) :
    (st.commitConnection si ei).nodes =
      (st.nodes.set si
          { sn with connections := sn.connections ++ [st.conns.length] }).set ei
        { en with connections := en.connections ++ [st.conns.length] } ∧
    (st.commitConnection si ei).conns =
      st.conns ++
        [(ConnectionItem.init si ei).update_path (st.commitConnection si ei).nodes] ∧
    (st.commitConnection si ei).line_in_progress = st.line_in_progress ∧
    (st.commitConnection si ei).start_item = st.start_item ∧
    (st.commitConnection si ei).start_pos = st.start_pos := by
  unfold SceneState.commitConnection
  dsimp only
  rw [hsn]
  dsimp only
  have h2 : (st.nodes.set si
      { sn with connections := sn.connections ++ [st.conns.length] })[ei]? = some en := by
    rw [List.getElem?_set_ne hne, hen]
  rw [h2]
  exact ⟨rfl, rfl, rfl, rfl, rfl⟩

/-- C3: on pointer-up while a connection gesture is in progress, the
temporary line is removed and the gesture fields are cleared
unconditionally; a permanent connection is created iff the topmost item
at the release point is a node different from the source and the point is
within the port hit threshold of that node's input port — in which case
the connection is appended to the scene's collection, registered in both
endpoint nodes' attachment lists, and its initial path is computed from
the live port positions; if either condition fails the result is exactly
the reset state: no connection created, no temporary item left, no error
surfaced. -/
theorem release_commits_iff (st : SceneState) (p : Point) (l : Line)
    (si : Nat) (sn : CustomNode) (hl : st.line_in_progress = some l)
    (hsi : st.start_item = some si) (hsn : st.nodes[si]? = some sn) :
    ((st.mouseReleaseEvent p).line_in_progress = none ∧
     (st.mouseReleaseEvent p).start_item = none ∧
     (st.mouseReleaseEvent p).start_pos = none) ∧
    (∀ (ei : Nat) (en : CustomNode), itemAtNode st.nodes p = some ei → si ≠ ei →
      st.nodes[ei]? = some en →
      (p - en.mapToScene en.input_pos).manhattanLength < 15 →
      ∃ conn,
        (st.mouseReleaseEvent p).conns = st.conns ++ [conn] ∧
        conn.start_item = si ∧ conn.end_item = ei ∧
        ∃ (ns ne : CustomNode) (bp : BezierPath),
          (st.mouseReleaseEvent p).nodes[si]? = some ns ∧
          (st.mouseReleaseEvent p).nodes[ei]? = some ne ∧
          ns.connections = sn.connections ++ [st.conns.length] ∧
          ne.connections = en.connections ++ [st.conns.length] ∧
          conn.path = some bp ∧
          bp.start = ns.mapToScene ns.output_pos ∧
          bp.endp = ne.mapToScene ne.input_pos) ∧
    ((¬ ∃ (ei : Nat) (en : CustomNode), itemAtNode st.nodes p = some ei ∧ si ≠ ei ∧
        st.nodes[ei]? = some en ∧
        (p - en.mapToScene en.input_pos).manhattanLength < 15) →
      st.mouseReleaseEvent p = st.resetGesture) := by
  have hrel := mouseReleaseEvent_eq st p l si hl hsi
  refine ⟨?_, ?_, ?_⟩
  · rw [hrel]
    cases itemAtNode st.nodes p with
    | none => exact ⟨rfl, rfl, rfl⟩
    | some ei =>
        dsimp only
        by_cases hne : si ≠ ei
        · rw [if_pos hne]
          cases st.nodes[ei]? with
          | none => exact ⟨rfl, rfl, rfl⟩
          | some en =>
              dsimp only
              by_cases hd : (p - en.mapToScene en.input_pos).manhattanLength < 15
              · rw [if_pos hd]; exact ⟨rfl, rfl, rfl⟩
              · rw [if_neg hd]; exact ⟨rfl, rfl, rfl⟩
        · rw [if_neg hne]; exact ⟨rfl, rfl, rfl⟩
  · intro ei en hei hne hen hd
    rw [hrel, hei]
    dsimp only
    rw [if_pos hne, hen]
    dsimp only
    rw [if_pos hd]
    obtain ⟨hn3, hc3, -, -, -⟩ := commitConnection_spec st si ei sn en hsn hen hne
    have hsilen : si < st.nodes.length := (List.getElem?_eq_some.mp hsn).1
    have heilen : ei < st.nodes.length := (List.getElem?_eq_some.mp hen).1
    have hns : (st.commitConnection si ei).nodes[si]? =
        some { sn with connections := sn.connections ++ [st.conns.length] } := by
      rw [hn3, List.getElem?_set_ne (fun h => hne h.symm),
        List.getElem?_set_eq_of_lt _ hsilen]
    have hne2 : (st.commitConnection si ei).nodes[ei]? =
        some { en with connections := en.connections ++ [st.conns.length] } := by
      rw [hn3, List.getElem?_set_eq_of_lt _ (by simpa using heilen)]
    refine ⟨(ConnectionItem.init si ei).update_path (st.commitConnection si ei).nodes,
      hc3, update_path_start_item _ _, update_path_end_item _ _,
      { sn with connections := sn.connections ++ [st.conns.length] },
      { en with connections := en.connections ++ [st.conns.length] }, _,
      hns, hne2, rfl, rfl, update_path_spec _ _ _ _ hns hne2, rfl, rfl⟩
  · intro hnot
    rw [hrel]
    cases hei : itemAtNode st.nodes p with
    | none => rfl
    | some ei =>
        dsimp only
        by_cases hne : si ≠ ei
        · rw [if_pos hne]
          cases hen : st.nodes[ei]? with
          | none => rfl
          | some en =>
              dsimp only
              by_cases hd : (p - en.mapToScene en.input_pos).manhattanLength < 15
              · exact absurd ⟨ei, en, hei, hne, hen, hd⟩ hnot
              · rw [if_neg hd]
        · rw [if_neg hne]

/-- Witness for C3 (releasing at B's input port after pressing at A's
output port): the temporary line and gesture fields are cleared. -/
theorem release_commits_iff_witness :
    ((run pressDemo).mouseReleaseEvent ⟨300, 50⟩).line_in_progress = none ∧
    ((run pressDemo).mouseReleaseEvent ⟨300, 50⟩).start_item = none ∧
    ((run pressDemo).mouseReleaseEvent ⟨300, 50⟩).start_pos = none :=
  (release_commits_iff (run pressDemo) ⟨300, 50⟩ ⟨⟨150, 50⟩, ⟨150, 50⟩⟩ 0
      (CustomNode.init ⟨0, 0⟩) (by with_unfolding_all decide)
      (by with_unfolding_all decide) (by with_unfolding_all decide)).1

/-! ### C2: node moves recompute attached connection paths -/

/-- C2: after a committed position change of node `i` to `q`, every
connection `cid` attached to `i` has its path recomputed: its start point
is the source node's live output-port world position and its endpoint is
the target node's live input-port world position after the move; when the
moved node is the connection's source and not its target, the source
carries the new position `q` while the target node — and hence the
endpoint — is exactly what it was before the move. -/
theorem moveNode_recomputes_paths (st : SceneState) (i : Nat) (q : Point)
    (n : CustomNode) (cid : Nat) (c : ConnectionItem) (s e : CustomNode)
    (hn : st.nodes[i]? = some n) (hcid : cid ∈ n.connections)
    (hc : st.conns[cid]? = some c)
    (hs : (st.moveNode i q).nodes[c.start_item]? = some s)
    (he : (st.moveNode i q).nodes[c.end_item]? = some e) :
    ∃ (c2 : ConnectionItem) (bp : BezierPath),
      (st.moveNode i q).conns[cid]? = some c2 ∧
      c2.start_item = c.start_item ∧ c2.end_item = c.end_item ∧
      c2.path = some bp ∧
      bp.start = s.mapToScene s.output_pos ∧
      bp.endp = e.mapToScene e.input_pos ∧
      (c.start_item = i → s.pos = q) ∧
      (c.end_item ≠ i → st.nodes[c.end_item]? = some e) := by
  have hmv : st.moveNode i q =
      { st with nodes := st.nodes.set i { n with pos := q },
                conns := updatePaths (st.nodes.set i { n with pos := q })
                  n.connections st.conns } := by
    unfold SceneState.moveNode
    rw [hn]
  rw [hmv] at hs he ⊢
  dsimp only at hs he ⊢
  have hgc : (updatePaths (st.nodes.set i { n with pos := q })
      n.connections st.conns)[cid]? =
      some (c.update_path (st.nodes.set i { n with pos := q })) := by
    rw [updatePaths_getElem, if_pos hcid, hc]
    rfl
  have hilen : i < st.nodes.length := (List.getElem?_eq_some.mp hn).1
  have hpath := update_path_spec (st.nodes.set i { n with pos := q }) c s e hs he
  refine ⟨c.update_path (st.nodes.set i { n with pos := q }),
    { start := s.mapToScene s.output_pos
      ctrl1 := ⟨(s.mapToScene s.output_pos).x +
          ((e.mapToScene e.input_pos).x - (s.mapToScene s.output_pos).x) * (1/2),
        (s.mapToScene s.output_pos).y⟩
      ctrl2 := ⟨(s.mapToScene s.output_pos).x +
          ((e.mapToScene e.input_pos).x - (s.mapToScene s.output_pos).x) * (1/2),
        (e.mapToScene e.input_pos).y⟩
      endp := e.mapToScene e.input_pos },
    hgc, update_path_start_item _ _, update_path_end_item _ _, hpath, rfl, rfl,
    ?_, ?_⟩
  · intro hstart
    rw [hstart, List.getElem?_set_eq_of_lt _ hilen] at hs
    injection hs with hs
    rw [← hs]
  · intro hend
    rw [List.getElem?_set_ne (fun h => hend h.symm)] at he
    exact he

/-- Witness for C2: moving demo node 0 to `(50,20)` recomputes the demo
connection's path from the new output port `(200,70)` to node 1's
unchanged input port `(300,50)`. -/
theorem moveNode_recomputes_paths_witness :
    ∃ (c2 : ConnectionItem) (bp : BezierPath),
      ((run demoEvents).moveNode 0 ⟨50, 20⟩).conns[0]? = some c2 ∧
      c2.start_item = demoConn.start_item ∧ c2.end_item = demoConn.end_item ∧
      c2.path = some bp ∧
      bp.start = ({ demoNodeA with pos := ⟨50, 20⟩ } : CustomNode).mapToScene
        ({ demoNodeA with pos := ⟨50, 20⟩ } : CustomNode).output_pos ∧
      bp.endp = demoNodeB.mapToScene demoNodeB.input_pos ∧
      (demoConn.start_item = 0 →
        ({ demoNodeA with pos := ⟨50, 20⟩ } : CustomNode).pos = ⟨50, 20⟩) ∧
      (demoConn.end_item ≠ 0 →
        (run demoEvents).nodes[demoConn.end_item]? = some demoNodeB) :=
  moveNode_recomputes_paths (run demoEvents) 0 ⟨50, 20⟩ demoNodeA 0 demoConn
    { demoNodeA with pos := ⟨50, 20⟩ } demoNodeB
    (by with_unfolding_all decide) (by with_unfolding_all decide)
    (by with_unfolding_all decide) (by with_unfolding_all decide)
    (by with_unfolding_all decide)

/-! ### C9: bidirectional consistency of the scene and attachment lists -/

theorem step_Inv (st : SceneState) (e : Event) (h : Inv st) : Inv (step st e) := by
  obtain ⟨⟨hfwd, hbwd⟩, hgest⟩ := h
  cases e with
  | addNode p =>
      rw [show step st (Event.addNode p) = st.addNode p from rfl]
      refine ⟨⟨?_, ?_⟩, ?_⟩
      · intro cid c hc
        obtain ⟨ns, ne, hns, hne, hm1, hm2⟩ := hfwd cid c hc
        have h1 : c.start_item < st.nodes.length := (List.getElem?_eq_some.mp hns).1
        have h2 : c.end_item < st.nodes.length := (List.getElem?_eq_some.mp hne).1
        refine ⟨ns, ne, ?_, ?_, hm1, hm2⟩
        · rw [show (st.addNode p).nodes = st.nodes ++ [CustomNode.init p] from rfl,
            List.getElem?_append_left h1]
          exact hns
        · rw [show (st.addNode p).nodes = st.nodes ++ [CustomNode.init p] from rfl,
            List.getElem?_append_left h2]
          exact hne
      · intro i n hn cid hcid
        rw [show (st.addNode p).nodes = st.nodes ++ [CustomNode.init p] from rfl] at hn
        by_cases hi : i < st.nodes.length
        · rw [List.getElem?_append_left hi] at hn
          exact hbwd i n hn cid hcid
        · rw [List.getElem?_append_right (not_lt.mp hi)] at hn
          have : i - st.nodes.length = 0 := by
            have hlt : i - st.nodes.length < 1 := by
              have := (List.getElem?_eq_some.mp hn).1
              simpa using this
            omega
          rw [this] at hn
          injection hn with hn
          rw [← hn] at hcid
          exact absurd hcid (List.not_mem_nil cid)
      · intro si hsi
        have := hgest si hsi
        rw [show (st.addNode p).nodes = st.nodes ++ [CustomNode.init p] from rfl,
          List.length_append]
        omega
  | moveNode i p =>
      rw [show step st (Event.moveNode i p) = st.moveNode i p from rfl]
      unfold SceneState.moveNode
      cases hn : st.nodes[i]? with
      | none => exact ⟨⟨hfwd, hbwd⟩, hgest⟩
      | some n =>
          dsimp only
          have hilen : i < st.nodes.length := (List.getElem?_eq_some.mp hn).1
          have hfix : ∀ (j : Nat) (ns : CustomNode), st.nodes[j]? = some ns →
              ∃ ns2, (st.nodes.set i { n with pos := p })[j]? = some ns2 ∧
                ns2.connections = ns.connections := by
            intro j ns hns
            by_cases hj : i = j
            · subst hj
              rw [hn] at hns
              injection hns with hns
              exact ⟨{ n with pos := p },
                List.getElem?_set_eq_of_lt _ hilen, by rw [← hns]⟩
            · exact ⟨ns, by rw [List.getElem?_set_ne hj]; exact hns, rfl⟩
          have hfix2 : ∀ (j : Nat) (ns2 : CustomNode),
              (st.nodes.set i { n with pos := p })[j]? = some ns2 →
              ∃ ns, st.nodes[j]? = some ns ∧ ns2.connections = ns.connections := by
            intro j ns2 hns2
            by_cases hj : i = j
            · subst hj
              rw [List.getElem?_set_eq_of_lt _ hilen] at hns2
              injection hns2 with hns2
              exact ⟨n, hn, by rw [← hns2]⟩
            · rw [List.getElem?_set_ne hj] at hns2
              exact ⟨ns2, hns2, rfl⟩
          refine ⟨⟨?_, ?_⟩, ?_⟩
          · intro cid c2 hc2
            rw [updatePaths_getElem] at hc2
            have key : ∀ (c : ConnectionItem), st.conns[cid]? = some c →
                c2.start_item = c.start_item ∧ c2.end_item = c.end_item →
                ∃ (ns ne : CustomNode),
                  (st.nodes.set i { n with pos := p })[c2.start_item]? = some ns ∧
                  (st.nodes.set i { n with pos := p })[c2.end_item]? = some ne ∧
                  cid ∈ ns.connections ∧ cid ∈ ne.connections := by
              rintro c hc ⟨he1, he2⟩
              obtain ⟨ns, ne, hns, hne, hm1, hm2⟩ := hfwd cid c hc
              obtain ⟨ns2, hns2, hcs⟩ := hfix c.start_item ns hns
              obtain ⟨ne2, hne2, hce⟩ := hfix c.end_item ne hne
              rw [he1, he2]
              exact ⟨ns2, ne2, hns2, hne2, hcs ▸ hm1, hce ▸ hm2⟩
            by_cases hm : cid ∈ n.connections
            · rw [if_pos hm] at hc2
              cases hc : st.conns[cid]? with
              | none => rw [hc] at hc2; simp at hc2
              | some c =>
                  rw [hc] at hc2
                  simp only [Option.map_some'] at hc2
                  injection hc2 with hc2
                  refine key c hc ?_
                  rw [← hc2]
                  exact ⟨update_path_start_item _ _, update_path_end_item _ _⟩
            · rw [if_neg hm] at hc2
              exact key c2 hc2 ⟨rfl, rfl⟩
          · intro j ns2 hns2 cid hcid
            obtain ⟨ns, hns, hcs⟩ := hfix2 j ns2 hns2
            obtain ⟨c, hc⟩ := hbwd j ns hns cid (hcs ▸ hcid)
            rw [updatePaths_getElem]
            by_cases hm : cid ∈ n.connections
            · rw [if_pos hm, hc]
              exact ⟨c.update_path _, rfl⟩
            · rw [if_neg hm]
              exact ⟨c, hc⟩
          · intro si hsi
            have := hgest si hsi
            rw [List.length_set]
            exact this
  | press p =>
      rw [show step st (Event.press p) = st.mousePressEvent p from rfl]
      unfold SceneState.mousePressEvent
      cases hit : itemAtNode st.nodes p with
      | none => exact ⟨⟨hfwd, hbwd⟩, hgest⟩
      | some i =>
          dsimp only
          cases hni : st.nodes[i]? with
          | none => exact ⟨⟨hfwd, hbwd⟩, hgest⟩
          | some item =>
              dsimp only
              split
              · refine ⟨⟨hfwd, hbwd⟩, ?_⟩
                intro si hsi
                injection hsi with hsi
                rw [← hsi]
                exact (List.getElem?_eq_some.mp hni).1
              · exact ⟨⟨hfwd, hbwd⟩, hgest⟩
  | move p =>
      rw [show step st (Event.move p) = st.mouseMoveEvent p from rfl]
      unfold SceneState.mouseMoveEvent
      cases st.line_in_progress <;> cases st.start_pos <;>
        exact ⟨⟨hfwd, hbwd⟩, hgest⟩
  | release p =>
      rw [show step st (Event.release p) = st.mouseReleaseEvent p from rfl]
      rcases mouseReleaseEvent_cases st p with heq | heq |
        ⟨si, ei, en, hsi, hei, hne, hen, hd, heq⟩
      · rw [heq]; exact ⟨⟨hfwd, hbwd⟩, hgest⟩
      · rw [heq]
        exact ⟨⟨hfwd, hbwd⟩, fun si hsi => by exact absurd hsi (by simp [SceneState.resetGesture])⟩
      · rw [heq]
        have hsilen : si < st.nodes.length := hgest si hsi
        have hsn : st.nodes[si]? = some st.nodes[si] := List.getElem?_eq_getElem hsilen
        have heilen : ei < st.nodes.length := (List.getElem?_eq_some.mp hen).1
        obtain ⟨hn3, hc3, -, -, -⟩ :=
          commitConnection_spec st si ei st.nodes[si] en hsn hen hne
        set sn2 : CustomNode :=
          { st.nodes[si] with connections := st.nodes[si].connections ++ [st.conns.length] }
        set en2 : CustomNode :=
          { en with connections := en.connections ++ [st.conns.length] }
        have hNsi : (st.commitConnection si ei).nodes[si]? = some sn2 := by
          rw [hn3, List.getElem?_set_ne (fun h => hne h.symm),
            List.getElem?_set_eq_of_lt _ hsilen]
        have hNei : (st.commitConnection si ei).nodes[ei]? = some en2 := by
          rw [hn3, List.getElem?_set_eq_of_lt _ (by simpa using heilen)]
        have hNother : ∀ (j : Nat), j ≠ si → j ≠ ei →
            (st.commitConnection si ei).nodes[j]? = st.nodes[j]? := by
          intro j hjs hje
          rw [hn3, List.getElem?_set_ne (fun h => hje h.symm),
            List.getElem?_set_ne (fun h => hjs h.symm)]
        have hfix : ∀ (j : Nat) (ns : CustomNode), st.nodes[j]? = some ns →
            ∃ ns2, (st.commitConnection si ei).nodes[j]? = some ns2 ∧
              ∀ x ∈ ns.connections, x ∈ ns2.connections := by
          intro j ns hns
          by_cases hjs : j = si
          · subst hjs
            rw [hns] at hsn
            injection hsn with hsn
            refine ⟨sn2, hNsi, fun x hx => List.mem_append_left _ ?_⟩
            rw [← hsn]
            exact hx
          · by_cases hje : j = ei
            · subst hje
              rw [hns] at hen
              injection hen with hen
              refine ⟨en2, hNei, fun x hx => List.mem_append_left _ ?_⟩
              rw [← hen]
              exact hx
            · exact ⟨ns, by rw [hNother j hjs hje]; exact hns, fun x hx => hx⟩
        refine ⟨⟨?_, ?_⟩, ?_⟩
        · intro cid c hc
          rw [show ((st.commitConnection si ei).resetGesture).conns =
            (st.commitConnection si ei).conns from rfl, hc3] at hc
          by_cases hcl : cid < st.conns.length
          · rw [List.getElem?_append_left hcl] at hc
            obtain ⟨ns, ne, hns, hne2, hm1, hm2⟩ := hfwd cid c hc
            obtain ⟨ns2, hns2, hsub1⟩ := hfix c.start_item ns hns
            obtain ⟨ne3, hne3, hsub2⟩ := hfix c.end_item ne hne2
            exact ⟨ns2, ne3, hns2, hne3, hsub1 cid hm1, hsub2 cid hm2⟩
          · have hclen : cid < st.conns.length + 1 := by
              have h1 := (List.getElem?_eq_some.mp hc).1
              simpa using h1
            have hcid : cid = st.conns.length := by omega
            rw [hcid, List.getElem?_concat_length] at hc
            injection hc with hc
            rw [← hc, update_path_start_item, update_path_end_item]
            refine ⟨sn2, en2, hNsi, hNei, ?_, ?_⟩
            · rw [hcid]
              exact List.mem_append_right _ (List.mem_singleton.mpr rfl)
            · rw [hcid]
              exact List.mem_append_right _ (List.mem_singleton.mpr rfl)
        · intro j nj hj cid hcid
          rw [show ((st.commitConnection si ei).resetGesture).nodes =
            (st.commitConnection si ei).nodes from rfl] at hj
          rw [show ((st.commitConnection si ei).resetGesture).conns =
            (st.commitConnection si ei).conns from rfl, hc3]
          have hback : (∃ ns, st.nodes[j]? = some ns ∧
              (cid ∈ ns.connections ∨ cid = st.conns.length)) := by
            by_cases hjs : j = si
            · subst hjs
              rw [hNsi] at hj
              injection hj with hj
              rw [← hj] at hcid
              rcases List.mem_append.mp hcid with hx | hx
              · exact ⟨st.nodes[j], hsn, Or.inl hx⟩
              · exact ⟨st.nodes[j], hsn, Or.inr (List.mem_singleton.mp hx)⟩
            · by_cases hje : j = ei
              · subst hje
                rw [hNei] at hj
                injection hj with hj
                rw [← hj] at hcid
                rcases List.mem_append.mp hcid with hx | hx
                · exact ⟨en, hen, Or.inl hx⟩
                · exact ⟨en, hen, Or.inr (List.mem_singleton.mp hx)⟩
              · rw [hNother j hjs hje] at hj
                exact ⟨nj, hj, Or.inl hcid⟩
          obtain ⟨ns, hns, hor⟩ := hback
          rcases hor with hx | hx
          · obtain ⟨c, hc⟩ := hbwd j ns hns cid hx
            have : cid < st.conns.length := (List.getElem?_eq_some.mp hc).1
            rw [List.getElem?_append_left this]
            exact ⟨c, hc⟩
          · rw [hx, List.getElem?_concat_length]
            exact ⟨_, rfl⟩
        · intro si2 hsi2
          exact absurd hsi2 (by simp [SceneState.resetGesture])

/-- C9: in every scene state reachable from the empty scene by any event
sequence, every connection in the scene's collection appears in the
attachment lists of both of its endpoint nodes, and every connection id
in any node's attachment list refers to a connection present in the
scene's collection. -/
theorem scene_consistency (es : List Event) : Consistent (run es) := by
  have hinit : Inv SceneState.init := by
    refine ⟨⟨?_, ?_⟩, ?_⟩
    · intro cid c hc
      exact nomatch hc
    · intro i n hn
      exact nomatch hn
    · intro si hsi
      exact nomatch hsi
  exact (foldl_invariant step Inv step_Inv SceneState.init hinit es).1

/-- Witness for C9 at the demo run. -/
theorem scene_consistency_witness : Consistent (run demoEvents) :=
  scene_consistency demoEvents

/-! ### C10: every valid gesture adds one more parallel connection -/

theorem mousePressEvent_start (st : SceneState) (p : Point) (a : Nat)
    (A : CustomNode) (hd : itemAtNode st.nodes p = some a)
    (hA : st.nodes[a]? = some A)
    (hnear : (p - A.mapToScene A.output_pos).manhattanLength < 15) :
    st.mousePressEvent p =
      { st with start_item := some a,
                start_pos := some (A.mapToScene A.output_pos),
                line_in_progress :=
                  some ⟨A.mapToScene A.output_pos, A.mapToScene A.output_pos⟩ } := by
  unfold SceneState.mousePressEvent
  rw [hd]
  dsimp only
  rw [hA]
  dsimp only
  rw [if_pos hnear]

theorem doGesture_step (st : SceneState) (a b : Nat) (A B : CustomNode)
    (pd pu : Point) (hab : a ≠ b) (hA : st.nodes[a]? = some A)
    (hB : st.nodes[b]? = some B) (hda : itemAtNode st.nodes pd = some a)
    (hna : (pd - A.mapToScene A.output_pos).manhattanLength < 15)
    (hub : itemAtNode st.nodes pu = some b)
    (hnb : (pu - B.mapToScene B.input_pos).manhattanLength < 15) :
    (doGesture pd pu st).nodes[a]? =
        some { A with connections := A.connections ++ [st.conns.length] } ∧
    (doGesture pd pu st).nodes[b]? =
        some { B with connections := B.connections ++ [st.conns.length] } ∧
    (∀ (j : Nat), j ≠ a → j ≠ b → (doGesture pd pu st).nodes[j]? = st.nodes[j]?) ∧
    (∃ cnew, (doGesture pd pu st).conns = st.conns ++ [cnew] ∧
      cnew.start_item = a ∧ cnew.end_item = b) ∧
    (doGesture pd pu st).line_in_progress = none ∧
    (doGesture pd pu st).nodes.length = st.nodes.length := by
  have halen : a < st.nodes.length := (List.getElem?_eq_some.mp hA).1
  have hblen : b < st.nodes.length := (List.getElem?_eq_some.mp hB).1
  have hst1 := mousePressEvent_start st pd a A hda hA hna
  have hgest : doGesture pd pu st = (st.mousePressEvent pd).mouseReleaseEvent pu := rfl
  have hn1 : (st.mousePressEvent pd).nodes = st.nodes := by rw [hst1]
  have hc1 : (st.mousePressEvent pd).conns = st.conns := by rw [hst1]
  have hl1 : (st.mousePressEvent pd).line_in_progress =
      some ⟨A.mapToScene A.output_pos, A.mapToScene A.output_pos⟩ := by rw [hst1]
  have hs1 : (st.mousePressEvent pd).start_item = some a := by rw [hst1]
  have hub1 : itemAtNode (st.mousePressEvent pd).nodes pu = some b := by
    rw [hn1]; exact hub
  have hB1 : (st.mousePressEvent pd).nodes[b]? = some B := by rw [hn1]; exact hB
  have hA1 : (st.mousePressEvent pd).nodes[a]? = some A := by rw [hn1]; exact hA
  have hrel := mouseReleaseEvent_eq (st.mousePressEvent pd) pu
    ⟨A.mapToScene A.output_pos, A.mapToScene A.output_pos⟩ a hl1 hs1
  rw [hgest, hrel, hub1]
  dsimp only
  rw [if_pos hab, hB1]
  dsimp only
  rw [if_pos hnb]
  obtain ⟨hn3, hc3, -, -, -⟩ :=
    commitConnection_spec (st.mousePressEvent pd) a b A B hA1 hB1 hab
  rw [hn1, hc1] at hn3
  rw [hc1] at hc3
  have hreset : ∀ st2 : SceneState, (st2.resetGesture).nodes = st2.nodes ∧
      (st2.resetGesture).conns = st2.conns ∧
      (st2.resetGesture).line_in_progress = none := fun _ => ⟨rfl, rfl, rfl⟩
  refine ⟨?_, ?_, ?_, ?_, (hreset _).2.2, ?_⟩
  · rw [(hreset _).1, hn3, List.getElem?_set_ne (fun h => hab h.symm),
      List.getElem?_set_eq_of_lt _ halen]
  · rw [(hreset _).1, hn3, List.getElem?_set_eq_of_lt _ (by simpa using hblen)]
  · intro j hja hjb
    rw [(hreset _).1, hn3, List.getElem?_set_ne (fun h => hjb h.symm),
      List.getElem?_set_ne (fun h => hja h.symm)]
  · refine ⟨(ConnectionItem.init a b).update_path
      ((st.mousePressEvent pd).commitConnection a b).nodes, ?_, ?_, ?_⟩
    · rw [(hreset _).2.1, hc3]
    · rw [update_path_start_item]
      exact rfl
    · rw [update_path_end_item]
      exact rfl
  · rw [(hreset _).1, hn3, List.length_set, List.length_set]

theorem gestures_accumulate_aux (a b : Nat) (pd pu : Point) (hab : a ≠ b) :
    ∀ (n : Nat) (st : SceneState) (A B : CustomNode),
      st.nodes[a]? = some A → st.nodes[b]? = some B →
      itemAtNode st.nodes pd = some a →
      (pd - A.mapToScene A.output_pos).manhattanLength < 15 →
      itemAtNode st.nodes pu = some b →
      (pu - B.mapToScene B.input_pos).manhattanLength < 15 →
      ∃ (An Bn : CustomNode),
        ((doGesture pd pu)^[n] st).nodes[a]? = some An ∧
        ((doGesture pd pu)^[n] st).nodes[b]? = some Bn ∧
        An.geom = A.geom ∧ Bn.geom = B.geom ∧
        ((doGesture pd pu)^[n] st).conns.length = st.conns.length + n ∧
        connCount ((doGesture pd pu)^[n] st).conns a b =
          connCount st.conns a b + n ∧
        An.connections.length = A.connections.length + n ∧
        Bn.connections.length = B.connections.length + n := by
  intro n
  induction n with
  | zero =>
      intro st A B hA hB hda hna hub hnb
      exact ⟨A, B, hA, hB, rfl, rfl, rfl, rfl, rfl, rfl⟩
  | succ m ih =>
      intro st A B hA hB hda hna hub hnb
      obtain ⟨h1, h2, h3, ⟨cnew, hc, hcs, hce⟩, h5, h6⟩ :=
        doGesture_step st a b A B pd pu hab hA hB hda hna hub hnb
      have hgeom : ∀ (j : Nat),
          ((doGesture pd pu st).nodes[j]?).map CustomNode.geom =
            (st.nodes[j]?).map CustomNode.geom := by
        intro j
        by_cases hja : j = a
        · subst hja
          rw [h1, hA]
          rfl
        · by_cases hjb : j = b
          · subst hjb
            rw [h2, hB]
            rfl
          · rw [h3 j hja hjb]
      have hitem : ∀ (q : Point), itemAtNode (doGesture pd pu st).nodes q =
          itemAtNode st.nodes q :=
        fun q => itemAtNode_congr _ _ q h6 hgeom
      have hcount1 : connCount (doGesture pd pu st).conns a b =
          connCount st.conns a b + 1 := by
        rw [hc]
        unfold connCount
        rw [List.countP_append]
        simp [List.countP_cons, hcs, hce]
      obtain ⟨An, Bn, g1, g2, g3, g4, g5, g6, g7, g8⟩ :=
        ih (doGesture pd pu st)
          { A with connections := A.connections ++ [st.conns.length] }
          { B with connections := B.connections ++ [st.conns.length] }
          h1 h2 (by rw [hitem]; exact hda) hna (by rw [hitem]; exact hub) hnb
      rw [Function.iterate_succ_apply]
      refine ⟨An, Bn, g1, g2, g3, g4, ?_, ?_, ?_, ?_⟩
      · rw [g5, hc, List.length_append]
        simp
        omega
      · rw [g6, hcount1]
        omega
      · rw [g7]
        simp
        omega
      · rw [g8]
        simp
        omega

/-- C10: there is no duplicate-connection check — for any two distinct
nodes `a` and `b` with a press point on `a`'s output port and a release
point on `b`'s input port, each completed drag-to-connect gesture appends
one more connection from `a` to `b`: after `n` such gestures the scene's
connection count has grown by `n`, the number of parallel `a → b`
connections has grown by `n`, and both `a`'s and `b`'s attachment lists
have grown by `n` entries. -/
theorem gestures_accumulate (st : SceneState) (a b : Nat) (A B : CustomNode)
    (pd pu : Point) (n : Nat) (hab : a ≠ b) (hA : st.nodes[a]? = some A)
    (hB : st.nodes[b]? = some B) (hda : itemAtNode st.nodes pd = some a)
    (hna : (pd - A.mapToScene A.output_pos).manhattanLength < 15)
    (hub : itemAtNode st.nodes pu = some b)
    (hnb : (pu - B.mapToScene B.input_pos).manhattanLength < 15) :
    ∃ (An Bn : CustomNode),
      ((doGesture pd pu)^[n] st).nodes[a]? = some An ∧
      ((doGesture pd pu)^[n] st).nodes[b]? = some Bn ∧
      ((doGesture pd pu)^[n] st).conns.length = st.conns.length + n ∧
      connCount ((doGesture pd pu)^[n] st).conns a b =
        connCount st.conns a b + n ∧
      An.connections.length = A.connections.length + n ∧
      Bn.connections.length = B.connections.length + n := by
  obtain ⟨An, Bn, h1, h2, -, -, h5, h6, h7, h8⟩ :=
    gestures_accumulate_aux a b pd pu hab n st A B hA hB hda hna hub hnb
  exact ⟨An, Bn, h1, h2, h5, h6, h7, h8⟩

/-- Witness for C10: two gestures on the two demo nodes yield two
parallel connections and two attachment entries on each node. -/
theorem gestures_accumulate_witness :
    ∃ (An Bn : CustomNode),
      ((doGesture ⟨150, 50⟩ ⟨300, 50⟩)^[2] (run addDemo)).nodes[0]? = some An ∧
      ((doGesture ⟨150, 50⟩ ⟨300, 50⟩)^[2] (run addDemo)).nodes[1]? = some Bn ∧
      ((doGesture ⟨150, 50⟩ ⟨300, 50⟩)^[2] (run addDemo)).conns.length =
        (run addDemo).conns.length + 2 ∧
      connCount ((doGesture ⟨150, 50⟩ ⟨300, 50⟩)^[2] (run addDemo)).conns 0 1 =
        connCount (run addDemo).conns 0 1 + 2 ∧
      An.connections.length = (CustomNode.init ⟨0, 0⟩).connections.length + 2 ∧
      Bn.connections.length = (CustomNode.init ⟨300, 0⟩).connections.length + 2 :=
  gestures_accumulate (run addDemo) 0 1 (CustomNode.init ⟨0, 0⟩)
    (CustomNode.init ⟨300, 0⟩) ⟨150, 50⟩ ⟨300, 50⟩ 2
    (by decide) (by with_unfolding_all decide) (by with_unfolding_all decide)
    (by with_unfolding_all decide) (by with_unfolding_all decide)
    (by with_unfolding_all decide) (by with_unfolding_all decide)

end NodeEditor
